import Mathlib

/-!
Verification development for the imflow image-dataset pipeline
(`src/imflow/imflow.py`).  The Python source is shallowly embedded below:
pure helper functions become Lean functions, numpy arrays become explicit
shape/data records, tensorflow image tensors become `Image` records with a
pixel function, and every fallible code path returns `Except`.
-/

namespace Imflow

/-- Equality of `Except` values is decidable when both components are. -/
instance {ε α : Type} [DecidableEq ε] [DecidableEq α] : DecidableEq (Except ε α) :=
  fun x y =>
    match x, y with
    | .ok a, .ok b =>
      if h : a = b then .isTrue (by rw [h])
      else .isFalse (by intro c; cases c; exact h rfl)
    | .error a, .error b =>
      if h : a = b then .isTrue (by rw [h])
      else .isFalse (by intro c; cases c; exact h rfl)
    | .ok _, .error _ => .isFalse (by intro c; cases c)
    | .error _, .ok _ => .isFalse (by intro c; cases c)

/-! ## Label model

`np.array(labels)` of a well-formed Python label argument is either a rank-1
integer vector or a rank-2 integer matrix; `Labels` records exactly that
distinction (`ndim` below is `np.ndarray.ndim`).
-/

/-- Raw labels after `labels = np.array(labels)` (imflow.py line 522). -/
inductive Labels where
  | one (l : List Int)
  | two (m : List (List Int))
deriving DecidableEq

/-- `np.ndarray.ndim` of the label array. -/
def Labels.ndim : Labels → Nat
  | .one _ => 1
  | .two _ => 2

/-- `label_mode` strings accepted anywhere in the source. -/
inductive LabelMode where
  | int
  | categorical
  | binary
  | multi_class
  | multi_label
deriving DecidableEq

/-- Labels after the mode-specific coercions of imflow.py lines 524-548:
`int`/`categorical` keep the integer vector, `binary` is cast to float
(lines 530, 535), `multi_class`/`multi_label` keep the integer matrix. -/
inductive NormLabels where
  | ints (l : List Int)
  | floats2 (m : List (List ℚ))
  | mat (m : List (List Int))
deriving DecidableEq

/-- The `ValueError`s the label pipeline can raise, one constructor per
`raise` site of `image_dataset_from_paths_and_labels`. -/
inductive ImErr where
  | badLabelMode          -- line 495: label_mode not in the accepted set
  | intCatRank            -- line 525: int/categorical labels must be rank 1
  | numpyEmptyMax         -- line 553: np.max of an empty label array raises
  | binaryTwoClasses      -- line 532: binary needs exactly 2 distinct values
  | multiRank             -- line 538: multi labels must be (samples, num_classes)
  | singleClassUseBinary  -- line 542: width < 2, suggests binary mode
  | useMultiLabel         -- line 546: row sum > 1, suggests multi_label
deriving DecidableEq

/-- `labels.shape[1]` of a rank-2 matrix (rows are equal-length). -/
def rowWidth (m : List (List Int)) : Nat := (m.headD []).length

/-- Rectangularity: what makes a list of rows an actual rank-2 numpy array. -/
def Rect (m : List (List Int)) : Prop := ∀ r ∈ m, r.length = rowWidth m

instance (m : List (List Int)) : Decidable (Rect m) :=
  List.decidableBAll _ m

/-- Well-formedness of a `Labels` value: a rank-2 array is non-empty and
rectangular (otherwise `np.array` would not have produced `ndim == 2`). -/
def Labels.wf : Labels → Prop
  | .one _ => True
  | .two m => m ≠ [] ∧ Rect m

/-- `np.max(np.sum(labels, axis=1))` (imflow.py line 545). -/
def maxRowSum : List (List Int) → Int
  | [] => 0
  | r :: rs => (rs.map (fun q => q.sum)).foldl max r.sum

/-- `len(np.unique(labels))` (imflow.py line 531). -/
def distinctCount (l : List Int) : Nat := l.dedup.length

/-- Lines 522-559 of `image_dataset_from_paths_and_labels`: the mode-specific
shape validation and coercion of `labels`, followed by the `num_classes`
computation.  Matches the source order of checks: rank check, then width
check, then (for multi_class) the row-sum check. -/
def reconcile (labels : Labels) (m : LabelMode) : Except ImErr (NormLabels × Int) :=
  match m with
  | .int | .categorical =>
    match labels with
    | .two _ => .error .intCatRank            -- line 524: labels.ndim > 1
    | .one l =>
      match l.max? with
      | none => .error .numpyEmptyMax
      | some mx => .ok (.ints l, mx + 1)      -- line 553: np.max(labels) + 1
  | .binary =>
    -- line 529: if labels.ndim < 2: labels = np.expand_dims(labels, axis=-1)
    let m2 : List (List Int) :=
      match labels with
      | .one l => l.map (fun v => [v])
      | .two t => t
    if distinctCount m2.flatten ≠ 2 then .error .binaryTwoClasses
    else .ok (.floats2 (m2.map (fun r => r.map (fun (v : Int) => (v : ℚ)))), 2)
  | .multi_class =>
    match labels with
    | .one _ => .error .multiRank             -- line 537: labels.ndim < 2
    | .two t =>
      if rowWidth t < 2 then .error .singleClassUseBinary    -- line 541
      else if maxRowSum t > 1 then .error .useMultiLabel     -- line 545
      else .ok (.mat t, (rowWidth t : Int))   -- line 555: labels.shape[1]
  | .multi_label =>
    match labels with
    | .one _ => .error .multiRank
    | .two t =>
      if rowWidth t < 2 then .error .singleClassUseBinary
      else .ok (.mat t, (rowWidth t : Int) + 1)  -- line 557: shape[1] + 1

/-- The `label_mode` membership gate of `image_dataset_from_paths_and_labels`
(imflow.py line 495): the accepted set is
`{'int', 'categorical', 'multi_label', 'binary', None}` — note the absence of
`'multi_class'`. -/
def paths_label_mode_ok : Option LabelMode → Bool
  | none => true
  | some .int => true
  | some .categorical => true
  | some .multi_label => true
  | some .binary => true
  | some .multi_class => false

/-- The `label_mode` membership gate of `image_dataset_from_directory`
(imflow.py line 287): the accepted set is
`{'int', 'categorical', 'multi_class', 'multi_label', 'binary', None}`,
which does contain `'multi_class'`. -/
def directory_label_mode_ok : Option LabelMode → Bool
  | none => true
  | some .int => true
  | some .categorical => true
  | some .multi_class => true
  | some .multi_label => true
  | some .binary => true

/-- The label half of `image_dataset_from_paths_and_labels`
(imflow.py lines 489-559): the line-495 membership gate, the
"labels is None or label_mode is None forces both to None" rule
(lines 499-501), then the reconciliation of lines 522-559.
Returns `none` for a no-label dataset, otherwise the coerced labels and the
derived `num_classes`. -/
def image_dataset_core (labels : Option Labels) (mode : Option LabelMode) :
    Except ImErr (Option (NormLabels × Int)) :=
  if paths_label_mode_ok mode = false then .error .badLabelMode
  else
    match labels, mode with
    | some l, some m => (reconcile l m).map (fun r => some r)
    | _, _ => .ok none

/-- Maximum label value occurring anywhere in the label array
(the spec's "maximum label value"). -/
def maxLabelValue : Labels → Option Int
  | .one l => l.max?
  | .two m => m.flatten.max?

/-- Class-count table transcribed from the spec (§4.1): "binary→2;
int/categorical→ (max label value + 1); multi_class→ row width;
multi_label→ row width + 1".  This definition follows the spec's words and is
compared against `reconcile`, which follows the source. -/
def class_count_spec : Labels → LabelMode → Option Int
  | _, .binary => some 2
  | l, .int => (maxLabelValue l).map (fun mx => mx + 1)
  | l, .categorical => (maxLabelValue l).map (fun mx => mx + 1)
  | .two m, .multi_class => some (rowWidth m : Int)
  | .two m, .multi_label => some ((rowWidth m : Int) + 1)
  | .one _, .multi_class => none
  | .one _, .multi_label => none

/-! ## Pipeline assembly (subset='both' branch)

Lines 604-623 of `image_dataset_from_paths_and_labels`: after the train and
validation datasets are built, each has a prefetch stage, then (depending on
`batch_size` and `shuffle`) shuffle and batch stages.  A `Stage` records one
declared `tf.data` pipeline stage.
-/

/-- One declared `tf.data` pipeline stage. -/
inductive Stage where
  | prefetch
  | shuffleStage (buffer seed : Nat)
  | batchStage (size : Nat)
deriving DecidableEq

/-- Whether a stage is a shuffle stage. -/
def Stage.isShuf : Stage → Bool
  | .shuffleStage _ _ => true
  | _ => false

/-- Stage lists applied to the training and validation datasets in the
`subset == 'both'` branch (imflow.py lines 604-618), in application order.
With a batch size: the training set is shuffled (buffer `batch_size * 8`)
when `shuffle` is set and then batched, the validation set is only batched.
Without a batch size: the training set is shuffled with buffer 1024 when
`shuffle` is set, the validation set gets nothing beyond prefetch. -/
def assemble_both_stages (batch_size : Option Nat) (shuffle : Bool) (seed : Nat) :
    List Stage × List Stage :=
  let train : List Stage := [.prefetch]
  let val : List Stage := [.prefetch]
  match batch_size with
  | some bs =>
    (train ++ (if shuffle then [.shuffleStage (bs * 8) seed] else []) ++ [.batchStage bs],
     val ++ [.batchStage bs])
  | none =>
    (train ++ (if shuffle then [.shuffleStage 1024 seed] else []), val)

/-- Element order after applying a stage list: prefetch and batch preserve the
order in which samples are yielded; only a shuffle stage reorders, by some
buffer-and-seed-dependent permutation `perm`. -/
def stage_order (perm : Nat → Nat → List Nat → List Nat) :
    List Stage → List Nat → List Nat
  | [], xs => xs
  | .prefetch :: ss, xs => stage_order perm ss xs
  | .batchStage _ :: ss, xs => stage_order perm ss xs
  | .shuffleStage b s :: ss, xs => stage_order perm ss (perm b s xs)

/-! ## Image tensors and numpy arrays -/

/-- A rank-3 image tensor `(height, width, channels)`; pixel values are
modelled as rationals (the source works in float32/uint8). -/
structure Image where
  height : Nat
  width : Nat
  channels : Nat
  pix : Nat → Nat → Nat → ℚ

/-- A numpy array: its shape and its row-major flat data. -/
structure NpArray where
  shape : List Nat
  data : List ℚ
deriving DecidableEq

/-- `np.ndarray.ndim`. -/
def NpArray.ndim (x : NpArray) : Nat := x.shape.length

/-- `np.expand_dims(x, axis=-1)` (imflow.py line 56): a trailing singleton
axis; the flat data is unchanged. -/
def expand_dims_last (x : NpArray) : NpArray :=
  { shape := x.shape ++ [1], data := x.data }

/-- `np.concatenate((x,)*copies, axis=-1)` for an array whose last axis has
size 1 (the only case reached in `numpy_channels`, where `x` always comes from
`np.expand_dims`): each scalar of the flat data is replicated `copies` times
and the last axis grows to `copies`. -/
def concatSingletonLast (x : NpArray) (copies : Nat) : NpArray :=
  { shape := x.shape.dropLast ++ [copies],
    data := x.data.flatMap (fun v => List.replicate copies v) }

/-- `numpy_channels` (imflow.py lines 54-61).  The Python function only
returns inside the `x.ndim == 2` branch; for any other rank it falls off the
end and returns `None`, modelled here as `none`. -/
def numpy_channels (x : NpArray) (num_channels : Nat) : Option NpArray :=
  if x.ndim = 2 then
    let x1 := expand_dims_last x
    let x2 := if num_channels = 3 then concatSingletonLast x1 3 else x1
    let x3 := if num_channels = 4 then concatSingletonLast x2 4 else x2
    some x3
  else none

/-- `decode_npz_image` (imflow.py lines 63-65): load the stored array, cast to
float32 (the identity in this rational model) and apply `numpy_channels`. -/
def decode_npz_image (x : NpArray) (num_channels : Nat) : Option NpArray :=
  numpy_channels x num_channels

/-- `decode_npy_image` (imflow.py lines 67-69): same as the npz decoder for a
single-array file. -/
def decode_npy_image (x : NpArray) (num_channels : Nat) : Option NpArray :=
  numpy_channels x num_channels

/-- View a rank-3 numpy array as an image tensor (what feeding the
`tf.numpy_function` result into the resize ops does). -/
def NpArray.toImage (x : NpArray) : Image :=
  match x.shape with
  | [h, w, c] =>
    { height := h, width := w, channels := c,
      pix := fun i j k => x.data.getD ((i * w + j) * c + k) 0 }
  | _ => { height := 0, width := 0, channels := 0, pix := fun _ _ _ => 0 }

/-! ## The tensorflow image ops used by `load_image` -/

/-- An interpolation kernel: given the source image and the target height and
width, produces the pixel at `(i, j, k)` of the scaled image.  The source
passes the `interpolation` argument through to the tensorflow resize ops;
its kernel is opaque here. -/
def Interp : Type :=
  Image → Nat → Nat → Nat → Nat → Nat → ℚ

/-- `tf.image.resize(img, (th, tw), method)`: plain distortion resize to the
exact target size; content given by the interpolation kernel. -/
def tf_resize (interp : Interp) (img : Image) (th tw : Nat) : Image :=
  { height := th, width := tw, channels := img.channels,
    pix := fun i j k => interp img th tw i j k }

/-- `tf.image.resize_with_crop_or_pad(img, th, tw)`: no rescaling at all —
dimensions larger than the target are centrally cropped
(offset `(dim - target) / 2`), dimensions smaller than the target are
centrally zero-padded (offset `(target - dim) / 2`). -/
def resize_with_crop_or_pad (img : Image) (th tw : Nat) : Image :=
  let offH := (img.height - th) / 2
  let offW := (img.width - tw) / 2
  let padH := (th - img.height) / 2
  let padW := (tw - img.width) / 2
  { height := th, width := tw, channels := img.channels,
    pix := fun i j k =>
      if padH ≤ i ∧ i < padH + min img.height th
          ∧ padW ≤ j ∧ j < padW + min img.width tw then
        img.pix (i - padH + offH) (j - padW + offW) k
      else 0 }

/-- `tf.image.pad_to_bounding_box(img, offH, offW, th, tw)`: place `img` at
the given offset inside a `(th, tw)` zero canvas. -/
def pad_to_bounding_box (img : Image) (offH offW th tw : Nat) : Image :=
  { height := th, width := tw, channels := img.channels,
    pix := fun i j k =>
      if offH ≤ i ∧ i < offH + img.height ∧ offW ≤ j ∧ j < offW + img.width then
        img.pix (i - offH) (j - offW) k
      else 0 }

/-- `tf.image.resize_with_pad(img, th, tw, method)` (letterbox): scale the
image by the aspect-preserving ratio so it fits inside the target, then pad
the remaining space with zeros, centered. -/
def resize_with_pad (interp : Interp) (img : Image) (th tw : Nat) : Image :=
  let ratio : ℚ := max ((img.width : ℚ) / (tw : ℚ)) ((img.height : ℚ) / (th : ℚ))
  let rh : Nat := (((img.height : ℚ) / ratio).floor).toNat
  let rw : Nat := (((img.width : ℚ) / ratio).floor).toNat
  let padH : Nat := ((((th : ℚ) - (img.height : ℚ) / ratio) / 2).floor).toNat
  let padW : Nat := ((((tw : ℚ) - (img.width : ℚ) / ratio) / 2).floor).toNat
  pad_to_bounding_box (tf_resize interp img rh rw) padH padW th tw

/-- `tf.concat((a, b), axis=-1)`: stack two images along the channel axis. -/
def concatChannels (a b : Image) : Image :=
  { height := a.height, width := a.width, channels := a.channels + b.channels,
    pix := fun i j k =>
      if k < a.channels then a.pix i j k else b.pix i j (k - a.channels) }

/-- `tf.math.multiply(tf.ones(tf.shape(img)), 255)` (imflow.py line 99): the
fully-opaque constant alpha plane. -/
def const255 (img : Image) : Image :=
  { height := img.height, width := img.width, channels := img.channels,
    pix := fun _ _ _ => 255 }

/-- The squeezed single DICOM frame as an image tensor: `tfio` decodes a
DICOM file to shape `(frames, height, width, 1)`, and after
`tf.squeeze(img, axis=0)` the plane has one channel. -/
def dicom_plane (h w : Nat) (p : Nat → Nat → ℚ) : Image :=
  { height := h, width := w, channels := 1, pix := fun i j _ => p i j }

/-- The channel replication of the DICOM branch (imflow.py lines 96-99):
replicate the grayscale plane to 3 channels, or to 4 channels with a constant
255 fourth channel; any other requested channel count leaves the plane
unchanged. -/
def dicom_channels (img : Image) (num_channels : Nat) : Image :=
  if num_channels = 3 then concatChannels img (concatChannels img img)
  else if num_channels = 4 then
    concatChannels img (concatChannels img (concatChannels img (const255 img)))
  else img

/-! ## Path dispatch

`load_image` dispatches on `tf.strings.regex_full_match(path, '.*\.EXT.*')`,
i.e. on whether the path contains the substring `.EXT`.
-/

/-- Whether `p` is an initial segment of `s` (character lists). -/
def startsWithL : List Char → List Char → Bool
  | [], _ => true
  | _ :: _, [] => false
  | p :: ps, c :: cs => p = c && startsWithL ps cs

/-- Whether `p` occurs as a contiguous run inside `s` (character lists). -/
def hasSubL (p : List Char) : List Char → Bool
  | [] => startsWithL p []
  | c :: cs => startsWithL p (c :: cs) || hasSubL p cs

/-- `tf.strings.regex_full_match(s, '.*PAT.*')`: `s` contains `pat`. -/
def strHasSub (s pat : String) : Bool := hasSubL pat.toList s.toList

/-! ## The format-dispatching decoder -/

/-- What sits behind a path on disk, already parsed by the external decoder
libraries: a DICOM file (its frame count and its single-channel plane as
produced by `tfio.image.decode_dicom_image`), a numpy array (the stored array
for `.npz`/`.npy` files), or a raster file (`tf.image.decode_image` can
produce any requested channel count from it). -/
inductive FileContent where
  | dicom (frames height width : Nat) (p : Nat → Nat → ℚ)
  | arr (x : NpArray)
  | raster (height width : Nat) (p : Nat → Nat → Nat → ℚ)

/-- Decode-time failures: the `tf.Assert` on the DICOM frame count (the
spec's `UnsupportedFormat`), and any other per-format decoder failure (the
spec's `DecodeFailure`), which also covers `numpy_channels` returning `None`
into `tf.numpy_function`. -/
inductive DecodeError where
  | unsupportedFormat
  | decodeFailure
deriving DecidableEq

/-- `load_image` (imflow.py lines 79-140).  Branches in source order on the
path pattern: `.dcm` (assert single frame, squeeze, replicate channels, then
crop-or-pad or plain resize), `.npz` and `.npy` (numpy decode, then
crop-or-pad or resize-with-pad), and the generic raster fallback (decode at
the requested channel count, then crop-or-pad or plain resize).  A path whose
content does not parse in the dispatched decoder is a decode failure. -/
def load_image (interp : Interp) (content : FileContent) (path : String)
    (image_size : Nat × Nat) (num_channels : Nat)
    (crop_to_aspect_ratio : Bool) : Except DecodeError Image :=
  if strHasSub path ".dcm" then
    match content with
    | .dicom frames h w p =>
      if frames = 1 then
        let img := dicom_channels (dicom_plane h w p) num_channels
        .ok (if crop_to_aspect_ratio then
               resize_with_crop_or_pad img image_size.1 image_size.2
             else tf_resize interp img image_size.1 image_size.2)
      else .error .unsupportedFormat
    | _ => .error .decodeFailure
  else if strHasSub path ".npz" then
    match content with
    | .arr x =>
      match decode_npz_image x num_channels with
      | some a =>
        .ok (if crop_to_aspect_ratio then
               resize_with_crop_or_pad a.toImage image_size.1 image_size.2
             else resize_with_pad interp a.toImage image_size.1 image_size.2)
      | none => .error .decodeFailure
    | _ => .error .decodeFailure
  else if strHasSub path ".npy" then
    match content with
    | .arr x =>
      match decode_npy_image x num_channels with
      | some a =>
        .ok (if crop_to_aspect_ratio then
               resize_with_crop_or_pad a.toImage image_size.1 image_size.2
             else resize_with_pad interp a.toImage image_size.1 image_size.2)
      | none => .error .decodeFailure
    | _ => .error .decodeFailure
  else
    match content with
    | .raster h w p =>
      let img : Image := { height := h, width := w, channels := num_channels, pix := p }
      .ok (if crop_to_aspect_ratio then
             resize_with_crop_or_pad img image_size.1 image_size.2
           else tf_resize interp img image_size.1 image_size.2)
    | _ => .error .decodeFailure

/-- The per-sample decode map declared by `paths_and_labels_to_dataset`
(imflow.py lines 42-46), pulled by the consumer: each `(content, path)` sample
is decoded in order, and the first decode error terminates the stream. -/
def decodeAll (interp : Interp) (samples : List (FileContent × String))
    (image_size : Nat × Nat) (num_channels : Nat) (crop : Bool) :
    Except DecodeError (List Image) :=
  match samples with
  | [] => .ok []
  | s :: rest => do
    let img ← load_image interp s.1 s.2 image_size num_channels crop
    let imgs ← decodeAll interp rest image_size num_channels crop
    .ok (img :: imgs)

/-- `color_mode` to channel count (imflow.py lines 502-507). -/
inductive ColorMode where
  | rgb
  | rgba
  | grayscale
deriving DecidableEq

/-- `num_channels` derived from `color_mode` (imflow.py lines 502-507). -/
def num_channels_of : ColorMode → Nat
  | .rgb => 3
  | .rgba => 4
  | .grayscale => 1

/-- A trivial interpolation kernel, used to instantiate witnesses. -/
def interp0 : Interp := fun _ _ _ _ _ _ => 0

/-- A constant all-ones decoded raster plane, used in concrete instances. -/
def onesPix : Nat → Nat → Nat → ℚ := fun _ _ _ => 1

/-- A constant-zero DICOM plane, used in concrete instances. -/
def pix0 : Nat → Nat → ℚ := fun _ _ => 0

/-! ## Helper lemmas -/

lemma flatten_map_singleton (l : List Int) : (l.map (fun v => [v])).flatten = l := by
  induction l with
  | nil => rfl
  | cons a t ih => simp [ih]

lemma map_map_cast_singleton (l : List Int) :
    (l.map (fun v => [v])).map (fun r => r.map (fun (v : Int) => (v : ℚ)))
      = l.map (fun (v : Int) => [(v : ℚ)]) := by
  induction l with
  | nil => rfl
  | cons a t ih =>
    simp only [List.map_cons, List.map_nil]
    rw [ih]

lemma le_foldl_max (xs : List Int) (a : Int) : a ≤ xs.foldl max a := by
  induction xs generalizing a with
  | nil => exact le_refl a
  | cons x t ih => exact le_trans (le_max_left a x) (ih (max a x))

lemma mem_le_foldl_max (xs : List Int) (a x : Int) (hx : x ∈ xs) :
    x ≤ xs.foldl max a := by
  induction xs generalizing a with
  | nil => cases hx
  | cons y t ih =>
    rcases List.mem_cons.1 hx with h | h
    · subst h
      exact le_trans (le_max_right a x) (le_foldl_max t (max a x))
    · exact ih (max a y) h

lemma one_lt_maxRowSum (t : List (List Int)) (h : ∃ r ∈ t, 1 < r.sum) :
    1 < maxRowSum t := by
  obtain ⟨row, hmem, hsum⟩ := h
  cases t with
  | nil => cases hmem
  | cons r rs =>
    rcases List.mem_cons.1 hmem with h | h
    · subst h
      exact lt_of_lt_of_le hsum (le_foldl_max _ _)
    · exact lt_of_lt_of_le hsum
        (mem_le_foldl_max _ _ _ (List.mem_map.2 ⟨row, h, rfl⟩))

/-! ## Claim theorems -/

/-- C1: the claim says a call to the public entry point with
`label_mode = 'multi_class'` and a valid one-hot matrix passes the label-mode
membership check and proceeds to a dataset with `class_count` equal to the
row width.  In the code, the accepted set at line 495 omits `'multi_class'`,
so the call raises the label-mode `ValueError` instead — even though the
`image_dataset_from_directory` gate (line 287) accepts `'multi_class'` and
lines 536-557 implement multi_class handling (yielding class count 2 for this
matrix once the gate is bypassed).  This theorem evaluates the pipeline at
the claim's own scenario-3 input. -/
theorem multi_class_rejected_at_entry_gate :
    image_dataset_core (some (.two [[1, 0], [0, 1], [1, 0]])) (some .multi_class)
      = .error .badLabelMode
    ∧ directory_label_mode_ok (some .multi_class) = true
    ∧ reconcile (.two [[1, 0], [0, 1], [1, 0]]) .multi_class
      = .ok (.mat [[1, 0], [0, 1], [1, 0]], 2) := by
  refine ⟨by decide, by decide, by decide⟩

/-- C3: for every (labels, label_mode) pair the mode-specific validation
accepts, the class count computed by lines 549-557 agrees with the spec's
derivation table: binary→2, int/categorical→(max label value + 1),
multi_class→row width, multi_label→row width + 1. -/
theorem reconcile_class_count_matches_spec (l : Labels) (lm : LabelMode)
    (nl : NormLabels) (c : Int) (hw : l.wf)
    (h : reconcile l lm = .ok (nl, c)) :
    class_count_spec l lm = some c := by
  cases lm with
  | int =>
    cases l with
    | two t => simp [reconcile] at h
    | one lst =>
      cases hm : lst.max? with
      | none => simp [reconcile, hm] at h
      | some mx =>
        simp [reconcile, hm] at h
        simp [class_count_spec, maxLabelValue, hm, h.2]
  | categorical =>
    cases l with
    | two t => simp [reconcile] at h
    | one lst =>
      cases hm : lst.max? with
      | none => simp [reconcile, hm] at h
      | some mx =>
        simp [reconcile, hm] at h
        simp [class_count_spec, maxLabelValue, hm, h.2]
  | binary =>
    have hc : c = 2 := by
      cases l with
      | one lst =>
        by_cases hd : distinctCount (lst.map (fun v => [v])).flatten ≠ 2
        · simp [reconcile, hd] at h
        · simp [reconcile, hd] at h
          omega
      | two t =>
        by_cases hd : distinctCount t.flatten ≠ 2
        · simp [reconcile, hd] at h
        · simp [reconcile, hd] at h
          omega
    simp [class_count_spec, hc]
  | multi_class =>
    cases l with
    | one lst => simp [reconcile] at h
    | two t =>
      by_cases h1 : rowWidth t < 2
      · simp [reconcile, h1] at h
      · by_cases h2 : maxRowSum t > 1
        · simp [reconcile, h1, h2] at h
        · simp [reconcile, h1, h2] at h
          simp [class_count_spec, h.2]
  | multi_label =>
    cases l with
    | one lst => simp [reconcile] at h
    | two t =>
      by_cases h1 : rowWidth t < 2
      · simp [reconcile, h1] at h
      · simp [reconcile, h1] at h
        simp [class_count_spec, h.2]

/-- C3 witness: scenario 1's labels [0,1,0] in int mode give class count 2. -/
theorem reconcile_class_count_matches_spec_witness :
    class_count_spec (.one [0, 1, 0]) .int = some 2 :=
  reconcile_class_count_matches_spec (.one [0, 1, 0]) .int (.ints [0, 1, 0]) 2
    trivial (by decide)

/-- C6: under `label_mode='binary'`, a rank-1 label vector is reshaped to a
rank-2 float matrix with a trailing singleton axis, and the call fails with
the two-distinct-values error exactly when the number of distinct label
values differs from 2. -/
theorem binary_mode_coercion (l : List Int) :
    (distinctCount l = 2 →
      reconcile (.one l) .binary
        = .ok (.floats2 (l.map (fun (v : Int) => [(v : ℚ)])), 2))
    ∧ (distinctCount l ≠ 2 →
      reconcile (.one l) .binary = .error .binaryTwoClasses) := by
  constructor
  · intro h2
    rw [show NormLabels.floats2 (l.map (fun (v : Int) => [(v : ℚ)]))
          = NormLabels.floats2 ((l.map (fun v => [v])).map
              (fun r => r.map (fun (v : Int) => (v : ℚ)))) from by
        rw [map_map_cast_singleton]]
    simp [reconcile, flatten_map_singleton, h2]
  · intro h2
    simp [reconcile, flatten_map_singleton, h2]

/-- C6 witness: scenario 2's labels [0,1,0] become [[0.0],[1.0],[0.0]]. -/
theorem binary_mode_coercion_witness :
    reconcile (.one [0, 1, 0]) .binary = .ok (.floats2 [[0], [1], [0]], 2) :=
  (binary_mode_coercion [0, 1, 0]).1 (by decide)

/-- C7: under `label_mode='multi_class'`, a rank-2 matrix with a row summing
to more than 1 fails with the error suggesting `multi_label`; a width-1
matrix fails with the error suggesting binary mode; and a rank-1 label input
fails with the error demanding shape (samples, num_classes). -/
theorem multi_class_validation_errors (t : List (List Int)) (l : List Int) :
    (t ≠ [] → Rect t → 2 ≤ rowWidth t → (∃ r ∈ t, 1 < r.sum) →
      reconcile (.two t) .multi_class = .error .useMultiLabel)
    ∧ (rowWidth t = 1 →
      reconcile (.two t) .multi_class = .error .singleClassUseBinary)
    ∧ reconcile (.one l) .multi_class = .error .multiRank := by
  refine ⟨?_, ?_, ?_⟩
  · intro _ _ hw hex
    have hs := one_lt_maxRowSum t hex
    have hw2 : ¬ rowWidth t < 2 := by omega
    simp [reconcile, hw2, hs]
  · intro h1
    have hw2 : rowWidth t < 2 := by omega
    simp [reconcile, hw2]
  · simp [reconcile]

/-- C7 witness: scenario 4's matrix [[1,1],[0,1],[0,0]] (row sum 2) fails
with the multi_label suggestion. -/
theorem multi_class_validation_errors_witness :
    reconcile (.two [[1, 1], [0, 1], [0, 0]]) .multi_class
      = .error .useMultiLabel :=
  (multi_class_validation_errors [[1, 1], [0, 1], [0, 0]] []).1
    (by decide) (by decide) (by decide) ⟨[1, 1], by decide, by decide⟩

/-- C9: in the `subset='both'` branch, only the training dataset gets a
shuffle stage (buffer `8 * batch_size` when batched, 1024 when unbatched);
the validation dataset never has a shuffle stage for any batch/shuffle
configuration, so applying its stage list preserves the sample order of the
validation slice. -/
theorem subset_both_val_never_shuffled (bs : Option Nat) (sh : Bool)
    (seed b : Nat) (perm : Nat → Nat → List Nat → List Nat) (xs : List Nat) :
    Stage.shuffleStage (b * 8) seed ∈ (assemble_both_stages (some b) true seed).1
    ∧ Stage.shuffleStage 1024 seed ∈ (assemble_both_stages none true seed).1
    ∧ ((assemble_both_stages bs sh seed).2.all (fun st => !st.isShuf)) = true
    ∧ stage_order perm (assemble_both_stages bs sh seed).2 xs = xs := by
  refine ⟨?_, ?_, ?_, ?_⟩
  · simp [assemble_both_stages]
  · simp [assemble_both_stages]
  · cases bs <;> simp [assemble_both_stages, Stage.isShuf]
  · cases bs <;> simp [assemble_both_stages, stage_order]

/-- C4: the claim says `crop_to_aspect_ratio=true` crops to the largest
centered aspect-matching window and then resizes, so no output pixel is
padding.  The code instead calls `tf.image.resize_with_crop_or_pad`, which
never rescales and zero-pads sources smaller than the target: decoding a
2x2 all-ones raster source at target size 4x4 with the crop flag set yields
an output whose corner pixel is the padding value 0 (no source pixel has
value 0) while the interior keeps the source value 1. -/
theorem crop_branch_pads_small_sources :
    load_image interp0 (.raster 2 2 onesPix) "img.png" (4, 4) 1 true
      = .ok (resize_with_crop_or_pad
          { height := 2, width := 2, channels := 1, pix := onesPix } 4 4)
    ∧ (resize_with_crop_or_pad
        { height := 2, width := 2, channels := 1, pix := onesPix } 4 4).pix 0 0 0 = 0
    ∧ (resize_with_crop_or_pad
        { height := 2, width := 2, channels := 1, pix := onesPix } 4 4).pix 1 1 0 = 1
    ∧ (resize_with_crop_or_pad
        { height := 6, width := 6, channels := 1,
          pix := fun i j _ => ((i * 10 + j : Nat) : ℚ) } 4 4).pix 0 0 0 = 11 := by
  refine ⟨rfl, by decide, by decide, by decide⟩

/-- C10: `numpy_channels` only returns a value for 2-dimensional arrays; on
any other rank it returns `None`, so the `.npz` decode of such a file cannot
produce an image tensor (and does not raise `UnsupportedFormat` either — the
stream fails as a plain decode failure). -/
theorem numpy_channels_none_on_non2d (x : NpArray) (nc : Nat) (path : String)
    (interp : Interp) (sz : Nat × Nat) (crop : Bool)
    (hrank : x.ndim ≠ 2)
    (hdcm : strHasSub path ".dcm" = false) (hnpz : strHasSub path ".npz" = true) :
    numpy_channels x nc = none
    ∧ load_image interp (.arr x) path sz nc crop = .error .decodeFailure := by
  have h1 : numpy_channels x nc = none := by simp [numpy_channels, hrank]
  refine ⟨h1, ?_⟩
  simp [load_image, hdcm, hnpz, decode_npz_image, h1]

/-- C10 witness: a rank-3 2x2x2 volume in a `.npz` file decodes to nothing. -/
theorem numpy_channels_none_on_non2d_witness :
    numpy_channels ⟨[2, 2, 2], [1, 2, 3, 4, 5, 6, 7, 8]⟩ 3 = none
    ∧ load_image interp0 (.arr ⟨[2, 2, 2], [1, 2, 3, 4, 5, 6, 7, 8]⟩)
        "vol.npz" (4, 4) 3 false = .error .decodeFailure :=
  numpy_channels_none_on_non2d ⟨[2, 2, 2], [1, 2, 3, 4, 5, 6, 7, 8]⟩ 3
    "vol.npz" interp0 (4, 4) false (by decide) (by decide) (by decide)

/-- C8: for a path matching the DICOM pattern, decode fails with
`UnsupportedFormat` whenever the decoded tensor's frame count is not 1 (so in
particular for every multi-frame file), and succeeds exactly on single-frame
files, squeezing out the plane and replicating it to 3 channels, or to 4
channels with a constant fully-opaque (255) fourth channel, as requested.
The failure is fatal for the enclosing iteration: whenever the declared
per-sample decode map completes, every sample decoded successfully, so there
is no skip-and-continue. -/
theorem dicom_single_frame_contract (interp : Interp) (frames h w : Nat)
    (p : Nat → Nat → ℚ) (path : String) (th tw nc : Nat) (crop : Bool)
    (hp : strHasSub path ".dcm" = true) :
    (frames ≠ 1 →
      load_image interp (.dicom frames h w p) path (th, tw) nc crop
        = .error .unsupportedFormat)
    ∧ (frames = 1 →
      load_image interp (.dicom frames h w p) path (th, tw) nc crop
        = .ok (if crop then
                 resize_with_crop_or_pad (dicom_channels (dicom_plane h w p) nc) th tw
               else tf_resize interp (dicom_channels (dicom_plane h w p) nc) th tw))
    ∧ (dicom_channels (dicom_plane h w p) 3).channels = 3
    ∧ (∀ i j k, k < 3 → (dicom_channels (dicom_plane h w p) 3).pix i j k = p i j)
    ∧ (dicom_channels (dicom_plane h w p) 4).channels = 4
    ∧ (∀ i j, (dicom_channels (dicom_plane h w p) 4).pix i j 3 = 255)
    ∧ (∀ i j k, k < 3 → (dicom_channels (dicom_plane h w p) 4).pix i j k = p i j)
    ∧ (∀ samples imgs, decodeAll interp samples (th, tw) nc crop = .ok imgs →
        ∀ s ∈ samples, ∃ img,
          load_image interp s.1 s.2 (th, tw) nc crop = .ok img) := by
  refine ⟨?_, ?_, ?_, ?_, ?_, ?_, ?_, ?_⟩
  · intro hf
    simp [load_image, hp, hf]
  · intro hf
    simp [load_image, hp, hf]
  · simp [dicom_channels, concatChannels, dicom_plane]
  · intro i j k hk
    match k, hk with
    | 0, _ => simp [dicom_channels, concatChannels, dicom_plane]
    | 1, _ => simp [dicom_channels, concatChannels, dicom_plane]
    | 2, _ => simp [dicom_channels, concatChannels, dicom_plane]
  · simp [dicom_channels, concatChannels, const255, dicom_plane]
  · intro i j
    simp [dicom_channels, concatChannels, const255, dicom_plane]
  · intro i j k hk
    match k, hk with
    | 0, _ => simp [dicom_channels, concatChannels, const255, dicom_plane]
    | 1, _ => simp [dicom_channels, concatChannels, const255, dicom_plane]
    | 2, _ => simp [dicom_channels, concatChannels, const255, dicom_plane]
  · intro samples
    induction samples with
    | nil =>
      intro imgs _ s hs
      cases hs
    | cons a rest ih =>
      intro imgs hok s hs
      unfold decodeAll at hok
      cases hla : load_image interp a.1 a.2 (th, tw) nc crop with
      | error e => rw [hla] at hok; cases hok
      | ok img =>
        rw [hla] at hok
        cases hrest : decodeAll interp rest (th, tw) nc crop with
        | error e => rw [hrest] at hok; cases hok
        | ok imgs2 =>
          rw [hrest] at hok
          rcases List.mem_cons.1 hs with hsa | hsr
          · subst hsa
            exact ⟨img, hla⟩
          · exact ih imgs2 (by rw [hrest]) s hsr

/-- C8 witness: a two-frame DICOM file fails with `UnsupportedFormat`. -/
theorem dicom_single_frame_contract_witness :
    load_image interp0 (.dicom 2 3 3 pix0) "scan.dcm" (4, 4) 3 false
      = .error .unsupportedFormat :=
  (dicom_single_frame_contract interp0 2 3 3 pix0 "scan.dcm" 4 4 3 false
    (by decide)).1 (by decide)

lemma dicom_channels_channels_of (img : Image) (h1 : img.channels = 1)
    (cm : ColorMode) :
    (dicom_channels img (num_channels_of cm)).channels = num_channels_of cm := by
  cases cm <;>
    simp [dicom_channels, concatChannels, const255, num_channels_of, h1]

lemma numpy_channels_toImage_channels (x a : NpArray) (cm : ColorMode)
    (hd : numpy_channels x (num_channels_of cm) = some a) :
    a.toImage.channels = num_channels_of cm := by
  unfold numpy_channels at hd
  split at hd
  case isFalse => cases hd
  case isTrue h2 =>
    rcases x with ⟨shape, data⟩
    rcases shape with _ | ⟨s1, _ | ⟨s2, _ | ⟨s3, rest⟩⟩⟩ <;>
      simp [NpArray.ndim] at h2
    cases cm <;>
      · simp [num_channels_of, expand_dims_last, concatSingletonLast,
          List.dropLast] at hd
        rw [← hd]
        simp [NpArray.toImage, num_channels_of]

/-- C2: whenever `load_image` succeeds — on any dispatch branch (DICOM, .npz,
.npy, generic raster), any color mode, any target size and either resize
policy — the produced tensor has shape exactly
`(image_size[0], image_size[1], num_channels)`, the shape asserted by
`img.set_shape` after decode. -/
theorem decode_shape_invariant (interp : Interp) (content : FileContent)
    (path : String) (cm : ColorMode) (th tw : Nat) (crop : Bool) (img : Image)
    (h : load_image interp content path (th, tw) (num_channels_of cm) crop
      = .ok img) :
    img.height = th ∧ img.width = tw ∧ img.channels = num_channels_of cm := by
  unfold load_image at h
  split at h
  · -- DICOM dispatch
    cases content with
    | dicom frames hh ww pp =>
      by_cases hf : frames = 1
      · simp only [hf, if_true, Except.ok.injEq] at h
        cases crop <;> simp only [Bool.false_eq_true, if_true, if_false] at h <;>
          rw [← h] <;>
          exact ⟨rfl, rfl, dicom_channels_channels_of (dicom_plane hh ww pp) rfl cm⟩
      · simp [hf] at h
    | arr x => cases h
    | raster hh ww pp => cases h
  · split at h
    · -- .npz dispatch
      cases content with
      | arr x =>
        dsimp only at h
        cases hdec : decode_npz_image x (num_channels_of cm) with
        | none => rw [hdec] at h; cases h
        | some a =>
          rw [hdec] at h
          simp only [Except.ok.injEq] at h
          have hc : a.toImage.channels = num_channels_of cm :=
            numpy_channels_toImage_channels x a cm
              (by simpa [decode_npz_image] using hdec)
          cases crop <;> simp only [Bool.false_eq_true, if_true, if_false] at h <;>
            rw [← h] <;> exact ⟨rfl, rfl, hc⟩
      | dicom frames hh ww pp => cases h
      | raster hh ww pp => cases h
    · split at h
      · -- .npy dispatch
        cases content with
        | arr x =>
          dsimp only at h
          cases hdec : decode_npy_image x (num_channels_of cm) with
          | none => rw [hdec] at h; cases h
          | some a =>
            rw [hdec] at h
            simp only [Except.ok.injEq] at h
            have hc : a.toImage.channels = num_channels_of cm :=
              numpy_channels_toImage_channels x a cm
                (by simpa [decode_npy_image] using hdec)
            cases crop <;>
              simp only [Bool.false_eq_true, if_true, if_false] at h <;>
              rw [← h] <;> exact ⟨rfl, rfl, hc⟩
        | dicom frames hh ww pp => cases h
        | raster hh ww pp => cases h
      · -- generic raster fallback
        cases content with
        | raster hh ww pp =>
          simp only [Except.ok.injEq] at h
          cases crop <;> simp only [Bool.false_eq_true, if_true, if_false] at h <;>
            rw [← h] <;> exact ⟨rfl, rfl, rfl⟩
        | dicom frames hh ww pp => cases h
        | arr x => cases h

/-- C2 witness: a 2x2 raster source decoded in rgb mode at target (4, 4). -/
theorem decode_shape_invariant_witness :
    (tf_resize interp0
      { height := 2, width := 2, channels := 3, pix := onesPix } 4 4).height = 4
    ∧ (tf_resize interp0
      { height := 2, width := 2, channels := 3, pix := onesPix } 4 4).width = 4
    ∧ (tf_resize interp0
      { height := 2, width := 2, channels := 3, pix := onesPix } 4 4).channels = 3 :=
  decode_shape_invariant interp0 (.raster 2 2 onesPix) "a.png" .rgb 4 4 false
    (tf_resize interp0
      { height := 2, width := 2, channels := 3, pix := onesPix } 4 4) rfl

lemma getD_replicate_of_lt (c : Nat) (v : ℚ) (k : Nat) (hk : k < c) :
    (List.replicate c v).getD k 0 = v := by
  rw [List.getD_eq_getElem _ _ (by simpa using hk)]
  simp

lemma flatMap_replicate_getD (l : List ℚ) (c n k : Nat) (hk : k < c) :
    (l.flatMap (fun v => List.replicate c v)).getD (n * c + k) 0
      = l.getD n 0 := by
  induction l generalizing n with
  | nil => simp
  | cons v rest ih =>
    cases n with
    | zero =>
      simp only [List.flatMap_cons, Nat.zero_mul, Nat.zero_add,
        List.getD_cons_zero]
      rw [List.getD_append _ _ _ _ (by simpa using hk)]
      exact getD_replicate_of_lt c v k hk
    | succ n =>
      simp only [List.flatMap_cons, List.getD_cons_succ]
      rw [List.getD_append_right _ _ _ _ (by simp [Nat.succ_mul]; omega)]
      have hidx : (n + 1) * c + k - (List.replicate c v).length = n * c + k := by
        simp [Nat.succ_mul]
        omega
      rw [hidx]
      exact ih n

/-- C5: when `crop_to_aspect_ratio` is false the resize policy differs by
source format: array-sourced `.npz` and `.npy` paths are letterboxed with
`resize_with_pad` (full content preserved, zero padding possible), while
DICOM and generic raster paths get a plain distortion `resize` to the exact
target size; and a `.npz` file holding a 2D array decoded with
`num_channels=3` is replicated across 3 channels before the padded resize. -/
theorem resize_policy_asymmetry (interp : Interp) (path : String)
    (th tw h0 w0 : Nat) (x a : NpArray) (nc : Nat)
    (hdcm : strHasSub path ".dcm" = false) (hnpz : strHasSub path ".npz" = true)
    (hx : x.shape = [h0, w0])
    (hdec : decode_npz_image x nc = some a) :
    load_image interp (.arr x) path (th, tw) nc false
      = .ok (resize_with_pad interp a.toImage th tw)
    ∧ (∀ (path2 : String) (hh ww : Nat) (rp : Nat → Nat → Nat → ℚ),
        strHasSub path2 ".dcm" = false → strHasSub path2 ".npz" = false →
        strHasSub path2 ".npy" = false →
        load_image interp (.raster hh ww rp) path2 (th, tw) nc false
          = .ok (tf_resize interp
              { height := hh, width := ww, channels := nc, pix := rp } th tw))
    ∧ (∀ (path3 : String) (hh ww : Nat) (pp : Nat → Nat → ℚ),
        strHasSub path3 ".dcm" = true →
        load_image interp (.dicom 1 hh ww pp) path3 (th, tw) nc false
          = .ok (tf_resize interp
              (dicom_channels (dicom_plane hh ww pp) nc) th tw))
    ∧ (∀ (path4 : String) (y b : NpArray),
        strHasSub path4 ".dcm" = false → strHasSub path4 ".npz" = false →
        strHasSub path4 ".npy" = true → decode_npy_image y nc = some b →
        load_image interp (.arr y) path4 (th, tw) nc false
          = .ok (resize_with_pad interp b.toImage th tw))
    ∧ (nc = 3 →
        a.toImage.channels = 3
        ∧ ∀ i j k, k < 3 → a.toImage.pix i j k = x.data.getD (i * w0 + j) 0) := by
  refine ⟨?_, ?_, ?_, ?_, ?_⟩
  · simp [load_image, hdcm, hnpz, hdec]
  · intro path2 hh ww rp h1 h2 h3
    simp [load_image, h1, h2, h3]
  · intro path3 hh ww pp h1
    simp [load_image, h1]
  · intro path4 y b h1 h2 h3 hb
    simp [load_image, h1, h2, h3, hb]
  · intro hnc3
    subst hnc3
    have ha : a = ⟨[h0, w0, 3], x.data.flatMap (fun v => List.replicate 3 v)⟩ := by
      simp [decode_npz_image, numpy_channels, NpArray.ndim, hx,
        expand_dims_last, concatSingletonLast, List.dropLast] at hdec
      exact hdec.symm
    subst ha
    refine ⟨by simp [NpArray.toImage], ?_⟩
    intro i j k hk
    simp only [NpArray.toImage]
    exact flatMap_replicate_getD x.data 3 (i * w0 + j) k hk

/-- C5 witness: a 2x2 array in a `.npz` file with rgb channels is replicated
to 3 channels and letterboxed to the (4, 4) target. -/
theorem resize_policy_asymmetry_witness :
    load_image interp0 (.arr ⟨[2, 2], [1, 2, 3, 4]⟩) "a.npz" (4, 4) 3 false
      = .ok (resize_with_pad interp0
          (NpArray.toImage
            ⟨[2, 2, 3], [1, 1, 1, 2, 2, 2, 3, 3, 3, 4, 4, 4]⟩) 4 4) :=
  (resize_policy_asymmetry interp0 "a.npz" 4 4 2 2 ⟨[2, 2], [1, 2, 3, 4]⟩
    ⟨[2, 2, 3], [1, 1, 1, 2, 2, 2, 3, 3, 3, 4, 4, 4]⟩ 3 (by decide) (by decide)
    rfl (by decide)).1
